import Mathlib

/-!
Verification of the Tafawoq subscription lifecycle, quota and scoring logic.

The definitions below are a shallow embedding of:
* `supabase/functions/stripe-webhook-handler/index.ts` (webhook consumer),
* `src/services/stripe/subscription.service.ts` (subscription service),
* the `check_exam_eligibility` SQL function from `specs/main/plan.md`,
* the Scoring Engine (modelled from the specification, no implementation
  exists in the repository).

Timestamps are epoch seconds as `Int`; nullable columns are `Option`;
fallible operations return `Except`.  The wall clock (`new Date()` /
`NOW()`) is passed explicitly as a `now : Int` parameter.  Database rows
are lists of records; a supabase `update ... eq` is a `List.map` that
rewrites the matching rows.
-/

deriving instance DecidableEq for Except

namespace Tafawoq

/-- Subscription tier, from `subscription.types.ts`. -/
inductive Tier
  | free
  | premium
deriving DecidableEq, Repr

/-- Subscription status, from `subscription.types.ts`. -/
inductive SubStatus
  | active
  | trialing
  | past_due
  | canceled
  | incomplete
deriving DecidableEq, Repr

/-- One row of the `user_subscriptions` table (`data-model.md` §1.3). -/
structure SubRecord where
  user_id : String
  stripe_customer_id : Option String := none
  stripe_subscription_id : Option String := none
  tier : Tier := Tier.free
  status : SubStatus := SubStatus.active
  trial_end_at : Option Int := none
  current_period_start : Option Int := none
  current_period_end : Option Int := none
  canceled_at : Option Int := none
  updated_at : Int := 0
deriving DecidableEq, Repr

/-- The `Stripe.Subscription` payload fields read by the webhook handler. -/
structure StripeSubscription where
  id : String
  customer : String
  status : SubStatus
  trial_end : Option Int := none
  current_period_start : Int := 0
  current_period_end : Int := 0
  canceled_at : Option Int := none
  cancel_at_period_end : Bool := false
deriving DecidableEq, Repr

/-- The `Stripe.Invoice` payload fields read by `handlePaymentFailed`. -/
structure StripeInvoice where
  subscription : Option String := none
deriving DecidableEq, Repr

/-- The row rewrite performed by `handleSubscriptionCreated`'s `update ...
eq('stripe_customer_id', customerId)` call (index.ts lines 84-97). -/
def createdUpdate (sub : StripeSubscription) (now : Int) (r : SubRecord) : SubRecord :=
  if r.stripe_customer_id = some sub.customer then
    { r with
        stripe_subscription_id := some sub.id
        tier := Tier.premium
        status := sub.status
        trial_end_at := sub.trial_end
        current_period_start := some sub.current_period_start
        current_period_end := some sub.current_period_end
        updated_at := now }
  else r

/-- `handleSubscriptionCreated` (index.ts lines 62-121): looks the user up by
Stripe customer id with `.single()` (errors when no unique row exists, the
thrown `User not found` path), then updates the matching rows to premium.
The non-critical `user_analytics` upsert performs no subscription mutation
and is omitted. -/
def handleSubscriptionCreated (sub : StripeSubscription) (now : Int)
    (store : List SubRecord) : Except String (List SubRecord) :=
  if (store.filter (fun r => decide (r.stripe_customer_id = some sub.customer))).length = 1 then
    Except.ok (store.map (createdUpdate sub now))
  else Except.error ("User not found for customer ID: " ++ sub.customer)

/-- The row rewrite performed by `handleSubscriptionUpdated`'s `update ...
eq('stripe_subscription_id', subscription.id)` call (index.ts lines
135-155): status and cancellation data are overwritten unconditionally;
the tier is downgraded to free only when the event reports
`status = canceled` with `cancel_at_period_end = false`. -/
def updatedUpdate (sub : StripeSubscription) (now : Int) (r : SubRecord) : SubRecord :=
  if r.stripe_subscription_id = some sub.id then
    if sub.status = SubStatus.canceled ∧ sub.cancel_at_period_end = false then
      { r with
          tier := Tier.free
          status := sub.status
          canceled_at := sub.canceled_at
          updated_at := now }
    else
      { r with
          status := sub.status
          canceled_at := sub.canceled_at
          updated_at := now }
  else r

/-- `handleSubscriptionUpdated` (index.ts lines 128-163).  An update that
matches no row is not an error for supabase, hence always `ok`. -/
def handleSubscriptionUpdated (sub : StripeSubscription) (now : Int)
    (store : List SubRecord) : Except String (List SubRecord) :=
  Except.ok (store.map (updatedUpdate sub now))

/-- The row rewrite performed by `handleSubscriptionDeleted` (index.ts lines
173-181): tier free, status canceled, cancellation stamped now.  The
`stripe_subscription_id` column is left untouched. -/
def deletedUpdate (sub : StripeSubscription) (now : Int) (r : SubRecord) : SubRecord :=
  if r.stripe_subscription_id = some sub.id then
    { r with
        tier := Tier.free
        status := SubStatus.canceled
        canceled_at := some now
        updated_at := now }
  else r

/-- `handleSubscriptionDeleted` (index.ts lines 170-189). -/
def handleSubscriptionDeleted (sub : StripeSubscription) (now : Int)
    (store : List SubRecord) : Except String (List SubRecord) :=
  Except.ok (store.map (deletedUpdate sub now))

/-- The row rewrite performed by `handlePaymentFailed` (index.ts lines
206-212): status past_due, tier untouched. -/
def paymentFailedUpdate (sid : String) (now : Int) (r : SubRecord) : SubRecord :=
  if r.stripe_subscription_id = some sid then
    { r with status := SubStatus.past_due, updated_at := now }
  else r

/-- `handlePaymentFailed` (index.ts lines 196-223); an invoice with no
subscription id is a warned no-op. -/
def handlePaymentFailed (inv : StripeInvoice) (now : Int)
    (store : List SubRecord) : Except String (List SubRecord) :=
  match inv.subscription with
  | none => Except.ok store
  | some sid => Except.ok (store.map (paymentFailedUpdate sid now))

/-- The four recognized webhook event payloads plus the logged-and-ignored
default case of the dispatch switch (index.ts lines 263-282). -/
inductive StripeEvent
  | subscriptionCreated (sub : StripeSubscription)
  | subscriptionUpdated (sub : StripeSubscription)
  | subscriptionDeleted (sub : StripeSubscription)
  | paymentFailed (inv : StripeInvoice)
  | unhandled (eventType : String)
deriving DecidableEq, Repr

/-- Event dispatch of the webhook handler (index.ts lines 263-282). -/
def handleEvent (e : StripeEvent) (now : Int)
    (store : List SubRecord) : Except String (List SubRecord) :=
  match e with
  | StripeEvent.subscriptionCreated sub => handleSubscriptionCreated sub now store
  | StripeEvent.subscriptionUpdated sub => handleSubscriptionUpdated sub now store
  | StripeEvent.subscriptionDeleted sub => handleSubscriptionDeleted sub now store
  | StripeEvent.paymentFailed inv => handlePaymentFailed inv now store
  | StripeEvent.unhandled _ => Except.ok store

/-- A webhook event together with the timestamp Stripe stamps on the event
itself (`event.created`).  The handler never reads this field. -/
structure TimedEvent where
  created : Int
  event : StripeEvent
deriving DecidableEq, Repr

/-- Applying a timed event: the handler ignores the event's own timestamp
entirely (no field of `event.created` is consulted anywhere in index.ts). -/
def applyTimedEvent (te : TimedEvent) (now : Int)
    (store : List SubRecord) : Except String (List SubRecord) :=
  handleEvent te.event now store

/-- An inbound HTTP request as seen by the `serve` handler: method, raw
body, and the optional `stripe-signature` header. -/
structure WebhookRequest where
  method : String
  body : String
  signature : Option String
deriving Repr

/-- The `serve` request handler (index.ts lines 228-302), parameterized by
the signature-verification function `verify` (`stripe.webhooks.constructEvent`,
returning `none` when verification throws).  Returns the HTTP status code
and the resulting subscription store.  A processing error inside the
dispatch is caught and still acknowledged with 200 (lines 283-294); the
only mutation-before-error point in the handlers is the `User not found`
throw, which happens before any update, so the store is unchanged on
error. -/
def serveWebhook (verify : String → String → Option StripeEvent)
    (req : WebhookRequest) (now : Int)
    (store : List SubRecord) : Nat × List SubRecord :=
  if req.method ≠ "POST" then (405, store)
  else
    match req.signature with
    | none => (400, store)
    | some sig =>
      match verify req.body sig with
      | none => (400, store)
      | some ev =>
        match handleEvent ev now store with
        | Except.ok store' => (200, store')
        | Except.error _ => (200, store)

/-! Quota Ledger: the `check_exam_eligibility` SQL function, plan.md §2.1
(lines 744-783). -/

/-- Status of an exam or practice session, from `exam.types.ts`. -/
inductive SessionStatus
  | in_progress
  | completed
  | abandoned
deriving DecidableEq, Repr

/-- One row of the `exam_sessions` table, restricted to the columns the
eligibility query reads. -/
structure ExamSession where
  user_id : String
  status : SessionStatus
  started_at : Int
deriving DecidableEq, Repr

/-- Result row of `check_exam_eligibility`. -/
structure EligibilityResult where
  eligible : Bool
  reason : String
  next_available_at : Option Int
deriving DecidableEq, Repr

/-- Seconds in the SQL `INTERVAL '7 days'`. -/
def weekSeconds : Int := 604800

/-- The `WHERE` clause of the eligibility count: same user, `completed`,
and `started_at > NOW() - INTERVAL '7 days'` (a rolling window). -/
def examCountPred (uid : String) (now : Int) (s : ExamSession) : Bool :=
  decide (s.user_id = uid) && decide (s.status = SessionStatus.completed)
    && decide (s.started_at > now - weekSeconds)

/-- `MAX(started_at)` over the selected rows (`NULL` when none). -/
def maxStarted : List ExamSession → Option Int
  | [] => none
  | s :: rest =>
    match maxStarted rest with
    | none => some s.started_at
    | some m => some (max s.started_at m)

/-- `check_exam_eligibility(check_user_id)` embedded from the SQL in
plan.md: premium users are always eligible; for the free tier the function
counts `completed` sessions with `started_at` in the rolling last 7 days
and, when at least one exists, denies with
`next_available_at = last_exam_at + INTERVAL '7 days'`. -/
def check_exam_eligibility (subs : List SubRecord) (sessions : List ExamSession)
    (uid : String) (now : Int) : EligibilityResult :=
  let userTier : Option Tier := (subs.find? (fun r => decide (r.user_id = uid))).map SubRecord.tier
  if userTier = some Tier.premium then
    { eligible := true, reason := "Premium access", next_available_at := none }
  else
    let cw := sessions.filter (examCountPred uid now)
    if 1 ≤ cw.length then
      { eligible := false
        reason := "Free tier limit: 1 exam per week"
        next_available_at := (maxStarted cw).map (fun t => t + weekSeconds) }
    else
      { eligible := true, reason := "Eligible", next_available_at := none }

/-- Start (Sunday 00:00 UTC) of the UTC week containing `now`, written from
the repository spec's definition of the week ("Sunday 00:00 UTC through
Saturday 23:59 UTC", specs/main/spec.md line 146).  Day 0 of the epoch is a
Thursday, so day `d` has day-of-week `(d + 4) % 7` with 0 = Sunday.  Used
only to compare the implemented window with the specified one. -/
def specWeekStart (now : Int) : Int :=
  (now / 86400 - ((now / 86400 + 4) % 7)) * 86400

/-- Membership of a timestamp in the current fixed UTC week of `now`. -/
def inCurrentUTCWeek (now t : Int) : Bool :=
  decide (specWeekStart now ≤ t) && decide (t < specWeekStart now + weekSeconds)

/-! Subscription service, `subscription.service.ts`. -/

/-- `getSubscription` (subscription.service.ts lines 97-146): a
`select ... eq('user_id', userId).single()` read.  `.single()` reports
`PGRST116` both when zero and when several rows match, and the service
maps that error to `null`; any reported row is returned unchanged.  The
function never writes. -/
def getSubscription (store : List SubRecord) (uid : String) :
    Except String (Option SubRecord) :=
  match store.filter (fun r => decide (r.user_id = uid)) with
  | [r] => Except.ok (some r)
  | _ => Except.ok none

/-- `hasPremiumAccess` (subscription.service.ts lines 155-172) as a function
of the lookup outcome: `false` on a lookup error (the catch-all), `false`
when no record exists, and otherwise tier premium with status active or
trialing. -/
def hasPremiumAccessFrom (lookup : Except String (Option SubRecord)) : Bool :=
  match lookup with
  | Except.error _ => false
  | Except.ok none => false
  | Except.ok (some s) =>
    decide (s.tier = Tier.premium ∧
      (s.status = SubStatus.active ∨ s.status = SubStatus.trialing))

/-- `hasPremiumAccess` composed with the store lookup. -/
def hasPremiumAccess (store : List SubRecord) (uid : String) : Bool :=
  hasPremiumAccessFrom (getSubscription store uid)

/-! Post-payment convergence polling, `refreshSubscriptionStatus`
(subscription.service.ts lines 416-457).  The successive
`getSubscription` reads are modelled by `obs : Nat → Option SubRecord`,
the value observed by the k-th lookup. -/

/-- `maxAttempts` of the polling loop. -/
def maxAttempts : Nat := 3

/-- The delay schedule (milliseconds) between polling attempts. -/
def pollDelays : List Nat := [1000, 2000, 3000]

/-- The polling loop body: at each remaining attempt, read the store and
return early when the tier reads premium.  Also counts the lookups
performed. -/
def pollLoop (obs : Nat → Option SubRecord) : Nat → Nat → Option SubRecord × Nat
  | _, 0 => (none, 0)
  | start, fuel + 1 =>
    match obs start with
    | some s =>
      if s.tier = Tier.premium then (some s, 1)
      else ((pollLoop obs (start + 1) fuel).1, (pollLoop obs (start + 1) fuel).2 + 1)
    | none => ((pollLoop obs (start + 1) fuel).1, (pollLoop obs (start + 1) fuel).2 + 1)

/-- `refreshSubscriptionStatus`: poll up to `maxAttempts` times, stopping
early on premium; when the bound is exhausted, fetch and return the final
state whatever its tier, or throw `SUBSCRIPTION_NOT_FOUND` when it is
absent.  Returns the outcome together with the number of lookups made. -/
def refreshSubscriptionStatus (obs : Nat → Option SubRecord) :
    Except String SubRecord × Nat :=
  match pollLoop obs 0 maxAttempts with
  | (some s, c) => (Except.ok s, c)
  | (none, c) =>
    match obs maxAttempts with
    | some s => (Except.ok s, c + 1)
    | none => (Except.error "SUBSCRIPTION_NOT_FOUND", c + 1)

/-- A premium record is observed by the i-th lookup. -/
def premiumAt (obs : Nat → Option SubRecord) (i : Nat) : Prop :=
  ∃ s, obs i = some s ∧ s.tier = Tier.premium

instance (obs : Nat → Option SubRecord) (i : Nat) : Decidable (premiumAt obs i) := by
  unfold premiumAt
  cases h : obs i with
  | none => exact Decidable.isFalse (by simp [h])
  | some s =>
    by_cases ht : s.tier = Tier.premium
    · exact Decidable.isTrue ⟨s, rfl, ht⟩
    · exact Decidable.isFalse (by
        rintro ⟨s', hs', ht'⟩
        obtain rfl := Option.some_inj.mp hs'
        exact ht ht')

/-! Scoring Engine.  Modelled from the spec: no scoring implementation
exists in the repository sources (`submitExam` with its scoring
calculation, task T130, is declared in contracts and task lists only), so
the definitions below follow §4.5 of the specification: per-section
percentage = (correct in section / total in section) × 100 rounded to two
decimals, overall = arithmetic mean of the section percentages, and
per-category percentage within a category; a section or category with no
items has no score. -/

/-- Exam sections. -/
inductive ExamSect
  | verbal
  | quantitative
deriving DecidableEq, Repr

/-- Modelled from the spec: one generated item with its correct-answer key
and category. -/
structure ScoringItem where
  itemId : Nat
  sect : ExamSect
  category : String
  correctKey : String
deriving DecidableEq, Repr

/-- Modelled from the spec: one submitted answer. -/
structure SubmittedAnswer where
  itemId : Nat
  answerKey : String
deriving DecidableEq, Repr

/-- The answer submitted for a given item, if any. -/
def answerFor (answers : List SubmittedAnswer) (itemId : Nat) : Option String :=
  (answers.find? (fun a => decide (a.itemId = itemId))).map SubmittedAnswer.answerKey

/-- An item is answered correctly when the submitted answer equals its
correct key. -/
def isCorrect (answers : List SubmittedAnswer) (it : ScoringItem) : Bool :=
  decide (answerFor answers it.itemId = some it.correctKey)

/-- Rounding to two decimals. -/
def round2 (q : ℚ) : ℚ := ((round (q * 100) : ℤ) : ℚ) / 100

/-- Modelled from the spec: percentage = (correct / total) × 100, rounded
to two decimals. -/
def percentScore (correct total : Nat) : ℚ :=
  round2 ((correct : ℚ) / (total : ℚ) * 100)

/-- Modelled from the spec: per-section percentage, `none` when the section
has no items. -/
def sectionScore (items : List ScoringItem) (answers : List SubmittedAnswer)
    (sec : ExamSect) : Option ℚ :=
  if (items.filter (fun it => decide (it.sect = sec))).length = 0 then none
  else some (percentScore
    ((items.filter (fun it => decide (it.sect = sec))).filter (isCorrect answers)).length
    (items.filter (fun it => decide (it.sect = sec))).length)

/-- Modelled from the spec: per-category percentage, `none` when the
category has no items. -/
def categoryScore (items : List ScoringItem) (answers : List SubmittedAnswer)
    (cat : String) : Option ℚ :=
  if (items.filter (fun it => decide (it.category = cat))).length = 0 then none
  else some (percentScore
    ((items.filter (fun it => decide (it.category = cat))).filter (isCorrect answers)).length
    (items.filter (fun it => decide (it.category = cat))).length)

/-- Modelled from the spec: overall average = arithmetic mean of the
section percentages that exist. -/
def overallAverage (items : List ScoringItem) (answers : List SubmittedAnswer) :
    Option ℚ :=
  match sectionScore items answers ExamSect.verbal,
        sectionScore items answers ExamSect.quantitative with
  | some v, some q => some ((v + q) / 2)
  | some v, none => some v
  | none, some q => some q
  | none, none => none

/-! Helper lemmas shared by the webhook theorems. -/

/-- Mapping an idempotent row rewrite twice equals mapping it once. -/
theorem map_rewrite_idem {α : Type} (f : α → α) (hf : ∀ x, f (f x) = f x)
    (l : List α) : (l.map f).map f = l.map f := by
  induction l with
  | nil => rfl
  | cons a t ih => simp [hf, ih]

/-- Filtering after a map that preserves the predicate equals mapping the
filtered list. -/
theorem filter_map_pred_preserved {α : Type} (p : α → Bool) (f : α → α)
    (hp : ∀ x, p (f x) = p x) (l : List α) :
    (l.map f).filter p = (l.filter p).map f := by
  induction l with
  | nil => rfl
  | cons a t ih =>
    by_cases h : p a
    · simp [List.filter_cons, hp, h, ih]
    · simp [List.filter_cons, hp, h, ih]

theorem createdUpdate_customer (sub : StripeSubscription) (now : Int)
    (r : SubRecord) :
    (createdUpdate sub now r).stripe_customer_id = r.stripe_customer_id := by
  unfold createdUpdate
  by_cases h : r.stripe_customer_id = some sub.customer <;> simp [h]

theorem createdUpdate_idem (sub : StripeSubscription) (now : Int) (r : SubRecord) :
    createdUpdate sub now (createdUpdate sub now r) = createdUpdate sub now r := by
  unfold createdUpdate
  by_cases h : r.stripe_customer_id = some sub.customer <;> simp [h]

theorem updatedUpdate_idem (sub : StripeSubscription) (now : Int) (r : SubRecord) :
    updatedUpdate sub now (updatedUpdate sub now r) = updatedUpdate sub now r := by
  unfold updatedUpdate
  by_cases h : r.stripe_subscription_id = some sub.id
  · by_cases hd : sub.status = SubStatus.canceled ∧ sub.cancel_at_period_end = false <;>
      simp [h, hd]
  · simp [h]

theorem deletedUpdate_idem (sub : StripeSubscription) (now : Int) (r : SubRecord) :
    deletedUpdate sub now (deletedUpdate sub now r) = deletedUpdate sub now r := by
  unfold deletedUpdate
  by_cases h : r.stripe_subscription_id = some sub.id <;> simp [h]

theorem paymentFailedUpdate_idem (sid : String) (now : Int) (r : SubRecord) :
    paymentFailedUpdate sid now (paymentFailedUpdate sid now r)
      = paymentFailedUpdate sid now r := by
  unfold paymentFailedUpdate
  by_cases h : r.stripe_subscription_id = some sid <;> simp [h]

/-- C2: for every valid lifecycle event of the four kinds (created, updated,
deleted, payment_failed), applying the webhook consumer's handling of the
event twice in succession (at the same wall-clock instant `now`, which the
handlers stamp into `updated_at`) yields the same subscription store as
applying it once: the second application is a no-op. -/
theorem applyLifecycleEvent_idempotent (e : StripeEvent) (now : Int)
    (store store' : List SubRecord)
    (h : handleEvent e now store = Except.ok store') :
    handleEvent e now store' = Except.ok store' := by
  cases e with
  | subscriptionCreated sub =>
    simp only [handleEvent, handleSubscriptionCreated] at h ⊢
    by_cases hc :
        (store.filter (fun r => decide (r.stripe_customer_id = some sub.customer))).length = 1
    · rw [if_pos hc] at h
      injection h with h'
      subst h'
      have hp : ∀ r, (decide ((createdUpdate sub now r).stripe_customer_id = some sub.customer))
          = decide (r.stripe_customer_id = some sub.customer) := by
        intro r; rw [createdUpdate_customer]
      rw [if_pos (by
        rw [filter_map_pred_preserved _ _ hp, List.length_map]
        exact hc)]
      rw [map_rewrite_idem _ (createdUpdate_idem sub now)]
    · rw [if_neg hc] at h
      exact absurd h (by simp)
  | subscriptionUpdated sub =>
    simp only [handleEvent, handleSubscriptionUpdated] at h ⊢
    injection h with h'
    subst h'
    rw [map_rewrite_idem _ (updatedUpdate_idem sub now)]
  | subscriptionDeleted sub =>
    simp only [handleEvent, handleSubscriptionDeleted] at h ⊢
    injection h with h'
    subst h'
    rw [map_rewrite_idem _ (deletedUpdate_idem sub now)]
  | paymentFailed inv =>
    simp only [handleEvent, handlePaymentFailed] at h ⊢
    cases hs : inv.subscription with
    | none => rfl
    | some sid =>
      rw [hs] at h
      injection h with h'
      subst h'
      exact congrArg Except.ok (map_rewrite_idem _ (paymentFailedUpdate_idem sid now) store)
  | unhandled t => rfl

/-- Sample event payload for the idempotency witness. -/
def subW2 : StripeSubscription :=
  { id := "sub_1", customer := "cus_1", status := SubStatus.active }

/-- Sample store for the idempotency witness. -/
def recW2 : SubRecord :=
  { user_id := "u1", stripe_customer_id := some "cus_1",
    stripe_subscription_id := some "sub_1", tier := Tier.premium,
    status := SubStatus.active, updated_at := 50 }

/-- The store after applying `subscriptionDeleted subW2` to `[recW2]`. -/
def recW2' : SubRecord :=
  { recW2 with
    tier := Tier.free
    status := SubStatus.canceled
    canceled_at := some 100
    updated_at := 100 }

/-- Witness for C2: re-applying a concrete deleted event to the store it
produced leaves the store unchanged. -/
theorem applyLifecycleEvent_idempotent_witness :
    handleEvent (StripeEvent.subscriptionDeleted subW2) 100 [recW2']
      = Except.ok [recW2'] :=
  applyLifecycleEvent_idempotent (StripeEvent.subscriptionDeleted subW2) 100
    [recW2] [recW2'] (by decide)

/-! C3: the Subscription Record invariant under the webhook operations. -/

/-- The premium half of the Subscription Record invariant of spec §3: a
premium record carries both external references. -/
def premiumInv (r : SubRecord) : Prop :=
  r.tier = Tier.premium →
    r.stripe_customer_id ≠ none ∧ r.stripe_subscription_id ≠ none

theorem createdUpdate_premiumInv (sub : StripeSubscription) (now : Int)
    (r : SubRecord) (h : premiumInv r) : premiumInv (createdUpdate sub now r) := by
  unfold premiumInv createdUpdate
  by_cases hc : r.stripe_customer_id = some sub.customer
  · rw [if_pos hc]
    intro _
    exact ⟨by rw [hc]; simp, by simp⟩
  · rw [if_neg hc]
    exact h

theorem updatedUpdate_premiumInv (sub : StripeSubscription) (now : Int)
    (r : SubRecord) (h : premiumInv r) : premiumInv (updatedUpdate sub now r) := by
  unfold premiumInv updatedUpdate
  by_cases hid : r.stripe_subscription_id = some sub.id
  · rw [if_pos hid]
    by_cases hd : sub.status = SubStatus.canceled ∧ sub.cancel_at_period_end = false
    · rw [if_pos hd]
      intro ht
      simp at ht
    · rw [if_neg hd]
      intro ht
      exact h ht
  · rw [if_neg hid]
    exact h

theorem deletedUpdate_premiumInv (sub : StripeSubscription) (now : Int)
    (r : SubRecord) (h : premiumInv r) : premiumInv (deletedUpdate sub now r) := by
  unfold premiumInv deletedUpdate
  by_cases hid : r.stripe_subscription_id = some sub.id
  · rw [if_pos hid]
    intro ht
    simp at ht
  · rw [if_neg hid]
    exact h

theorem paymentFailedUpdate_premiumInv (sid : String) (now : Int)
    (r : SubRecord) (h : premiumInv r) : premiumInv (paymentFailedUpdate sid now r) := by
  unfold premiumInv paymentFailedUpdate
  by_cases hid : r.stripe_subscription_id = some sid
  · rw [if_pos hid]
    intro ht
    exact h ht
  · rw [if_neg hid]
    exact h

/-- C3 amended: every webhook operation preserves the premium half of the
invariant (tier = premium ⇒ both external references non-null).  The free
half (tier = free ⇒ subscription reference null) is NOT preserved: the
deleted and immediate-cancel updated handlers set the tier to free while
leaving `stripe_subscription_id` untouched (see the counterexample). -/
theorem webhook_preserves_premium_refs (e : StripeEvent) (now : Int)
    (store store' : List SubRecord)
    (h : handleEvent e now store = Except.ok store')
    (hinv : ∀ r ∈ store, premiumInv r) :
    ∀ r' ∈ store', premiumInv r' := by
  cases e with
  | subscriptionCreated sub =>
    simp only [handleEvent, handleSubscriptionCreated] at h
    by_cases hc :
        (store.filter (fun r => decide (r.stripe_customer_id = some sub.customer))).length = 1
    · rw [if_pos hc] at h
      injection h with h'
      subst h'
      intro r' hr'
      obtain ⟨x, hx, rfl⟩ := List.mem_map.mp hr'
      exact createdUpdate_premiumInv sub now x (hinv x hx)
    · rw [if_neg hc] at h
      exact absurd h (by simp)
  | subscriptionUpdated sub =>
    simp only [handleEvent, handleSubscriptionUpdated] at h
    injection h with h'
    subst h'
    intro r' hr'
    obtain ⟨x, hx, rfl⟩ := List.mem_map.mp hr'
    exact updatedUpdate_premiumInv sub now x (hinv x hx)
  | subscriptionDeleted sub =>
    simp only [handleEvent, handleSubscriptionDeleted] at h
    injection h with h'
    subst h'
    intro r' hr'
    obtain ⟨x, hx, rfl⟩ := List.mem_map.mp hr'
    exact deletedUpdate_premiumInv sub now x (hinv x hx)
  | paymentFailed inv =>
    simp only [handleEvent, handlePaymentFailed] at h
    cases hs : inv.subscription with
    | none =>
      rw [hs] at h
      injection h with h'
      subst h'
      exact hinv
    | some sid =>
      rw [hs] at h
      injection h with h'
      subst h'
      intro r' hr'
      obtain ⟨x, hx, rfl⟩ := List.mem_map.mp hr'
      exact paymentFailedUpdate_premiumInv sid now x (hinv x hx)
  | unhandled t =>
    simp only [handleEvent] at h
    injection h with h'
    subst h'
    exact hinv

/-- Deleted event for the C3 counterexample and witness. -/
def subC3 : StripeSubscription :=
  { id := "sub_1", customer := "cus_1", status := SubStatus.canceled }

/-- A premium record satisfying both invariant halves. -/
def recC3 : SubRecord :=
  { user_id := "u1", stripe_customer_id := some "cus_1",
    stripe_subscription_id := some "sub_1", tier := Tier.premium,
    status := SubStatus.active, updated_at := 50 }

/-- The record after the deleted event: tier free but the subscription
reference still present. -/
def recC3' : SubRecord :=
  { recC3 with
    tier := Tier.free
    status := SubStatus.canceled
    canceled_at := some 100
    updated_at := 100 }

/-- C3 counterexample: applying a deleted event to a premium record that
satisfies both invariant halves produces a record with tier free whose
external subscription reference is still non-null, so the handlers do not
preserve the "tier = free ⇒ subscription reference null" half of the
claimed invariant. -/
theorem subscription_free_invariant_counterexample :
    handleEvent (StripeEvent.subscriptionDeleted subC3) 100 [recC3]
      = Except.ok [recC3']
    ∧ recC3.tier = Tier.premium
    ∧ recC3.stripe_customer_id ≠ none
    ∧ recC3.stripe_subscription_id ≠ none
    ∧ recC3'.tier = Tier.free
    ∧ recC3'.stripe_subscription_id = some "sub_1" := by
  refine ⟨?_, ?_, ?_, ?_, ?_, ?_⟩ <;> decide

/-- Witness for the amended C3: the premium-reference invariant holds for
the concrete record produced by the deleted event. -/
theorem webhook_preserves_premium_refs_witness : premiumInv recC3' :=
  webhook_preserves_premium_refs (StripeEvent.subscriptionDeleted subC3) 100
    [recC3] [recC3'] (by decide)
    (by
      intro r hr
      rw [List.mem_singleton] at hr
      subst hr
      intro _
      exact ⟨by decide, by decide⟩)
    recC3' (List.mem_singleton.mpr rfl)

/-! C1: out-of-order delivery. -/

/-- Free record before the out-of-order pair. -/
def recC1 : SubRecord :=
  { user_id := "u1", stripe_customer_id := some "cus_1" }

/-- The newer created event (event timestamp 200): trialing. -/
def subC1new : StripeSubscription :=
  { id := "sub_1", customer := "cus_1", status := SubStatus.trialing,
    trial_end := some 900, current_period_start := 100, current_period_end := 900 }

/-- The older updated event (event timestamp 150): incomplete. -/
def subC1old : StripeSubscription :=
  { id := "sub_1", customer := "cus_1", status := SubStatus.incomplete }

/-- Record after the newer created event. -/
def recC1mid : SubRecord :=
  { recC1 with
    stripe_subscription_id := some "sub_1"
    tier := Tier.premium
    status := SubStatus.trialing
    trial_end_at := some 900
    current_period_start := some 100
    current_period_end := some 900
    updated_at := 300 }

/-- Record after then applying the older updated event: the status
regressed. -/
def recC1post : SubRecord :=
  { recC1mid with
    status := SubStatus.incomplete
    canceled_at := none
    updated_at := 301 }

/-- C1 counterexample: applying an event that is older by its own event
timestamp (150 < 200) after the newer one, for the same subscription, is
not discarded: the webhook consumer overwrites the record and the status
regresses from trialing to incomplete. -/
theorem out_of_order_regression_counterexample :
    applyTimedEvent { created := 200, event := StripeEvent.subscriptionCreated subC1new }
        300 [recC1] = Except.ok [recC1mid]
    ∧ applyTimedEvent { created := 150, event := StripeEvent.subscriptionUpdated subC1old }
        301 [recC1mid] = Except.ok [recC1post]
    ∧ (150 : Int) < 200
    ∧ recC1mid.status = SubStatus.trialing
    ∧ recC1post.status = SubStatus.incomplete
    ∧ recC1post.status ≠ recC1mid.status := by
  refine ⟨?_, ?_, ?_, ?_, ?_, ?_⟩ <;> decide

/-- C1 amended: an event arriving after a newer one is not discarded — the
updated handler consults no timestamp at all: whatever the relationship
between event timestamps and the record's `updated_at`, every record
matching the event's subscription id is overwritten with the event's
status and cancellation data (and downgraded to free on immediate cancel),
so status/tier can regress under out-of-order delivery. -/
theorem updated_event_applied_unconditionally (sub : StripeSubscription)
    (now : Int) (store : List SubRecord) (r : SubRecord)
    (hr : r ∈ store) (hid : r.stripe_subscription_id = some sub.id) :
    handleSubscriptionUpdated sub now store
      = Except.ok (store.map (updatedUpdate sub now))
    ∧ (if sub.status = SubStatus.canceled ∧ sub.cancel_at_period_end = false then
        { r with
          tier := Tier.free
          status := sub.status
          canceled_at := sub.canceled_at
          updated_at := now }
      else
        { r with
          status := sub.status
          canceled_at := sub.canceled_at
          updated_at := now }) ∈ store.map (updatedUpdate sub now) := by
  refine ⟨rfl, ?_⟩
  have he : updatedUpdate sub now r
      = (if sub.status = SubStatus.canceled ∧ sub.cancel_at_period_end = false then
          { r with
            tier := Tier.free
            status := sub.status
            canceled_at := sub.canceled_at
            updated_at := now }
        else
          { r with
            status := sub.status
            canceled_at := sub.canceled_at
            updated_at := now }) := by
    unfold updatedUpdate
    rw [if_pos hid]
  rw [← he]
  exact List.mem_map_of_mem _ hr

/-- Witness for the amended C1 at the concrete out-of-order input. -/
theorem updated_event_applied_unconditionally_witness :
    handleSubscriptionUpdated subC1old 301 [recC1mid] = Except.ok [recC1post]
    ∧ recC1post ∈ [recC1post] := by
  have h := updated_event_applied_unconditionally subC1old 301 [recC1mid] recC1mid
    (List.mem_singleton.mpr rfl) (by decide)
  exact ⟨h.1, h.2⟩

/-! C5: the HTTP response contract of the webhook handler. -/

/-- C5: for every inbound webhook POST request, a missing signature header
or a failed signature verification yields a 400 response with the
subscription store unchanged, and once verification passes the handler
responds 200 — also when the internal processing of the event fails, in
which case the store is likewise unchanged. -/
theorem webhook_response_contract (verify : String → String → Option StripeEvent)
    (req : WebhookRequest) (now : Int) (store : List SubRecord) :
    (req.method = "POST" → req.signature = none →
      serveWebhook verify req now store = (400, store))
    ∧ (∀ sig, req.method = "POST" → req.signature = some sig →
        verify req.body sig = none →
        serveWebhook verify req now store = (400, store))
    ∧ (∀ sig ev, req.method = "POST" → req.signature = some sig →
        verify req.body sig = some ev →
        (serveWebhook verify req now store).1 = 200)
    ∧ (∀ sig ev msg, req.method = "POST" → req.signature = some sig →
        verify req.body sig = some ev →
        handleEvent ev now store = Except.error msg →
        serveWebhook verify req now store = (200, store)) := by
  refine ⟨?_, ?_, ?_, ?_⟩
  · intro hm hs
    simp [serveWebhook, hm, hs]
  · intro sig hm hs hv
    simp [serveWebhook, hm, hs, hv]
  · intro sig ev hm hs hv
    cases hp : handleEvent ev now store with
    | ok s' => simp [serveWebhook, hm, hs, hv, hp]
    | error msg => simp [serveWebhook, hm, hs, hv, hp]
  · intro sig ev msg hm hs hv hp
    simp [serveWebhook, hm, hs, hv, hp]

/-- Verification stub for the C5 witness: accepts exactly the signature
"good" and yields an event whose processing fails. -/
def verifyW5 : String → String → Option StripeEvent :=
  fun _ sig =>
    if sig = "good" then
      some (StripeEvent.subscriptionCreated
        { id := "sub_9", customer := "cus_none", status := SubStatus.active })
    else none

/-- Request with a bad signature for the C5 witness. -/
def reqW5bad : WebhookRequest := { method := "POST", body := "b", signature := some "bad" }

/-- Request with a good signature for the C5 witness. -/
def reqW5good : WebhookRequest := { method := "POST", body := "b", signature := some "good" }

/-- Witness for C5: a concrete bad-signature request is rejected with 400
and no mutation, and a concrete verified request whose processing fails
(customer unknown in an empty store) is still acknowledged with 200 and no
mutation. -/
theorem webhook_response_contract_witness :
    serveWebhook verifyW5 reqW5bad 0 [] = (400, [])
    ∧ serveWebhook verifyW5 reqW5good 0 [] = (200, []) := by
  constructor
  · exact (webhook_response_contract verifyW5 reqW5bad 0 []).2.1 "bad" rfl rfl (by decide)
  · exact (webhook_response_contract verifyW5 reqW5good 0 []).2.2.2 "good"
      (StripeEvent.subscriptionCreated
        { id := "sub_9", customer := "cus_none", status := SubStatus.active })
      "User not found for customer ID: cus_none" rfl rfl (by decide) (by decide)

/-! C6: only completed sessions count toward the weekly exam limit. -/

/-- C6: adding any number of sessions that are not `completed`
(in_progress or abandoned), anywhere in time — including inside the
current eligibility window — leaves the exam eligibility result entirely
unchanged. -/
theorem eligibility_ignores_noncompleted (subs : List SubRecord)
    (sessions extra : List ExamSession) (uid : String) (now : Int)
    (h : ∀ s ∈ extra, s.status ≠ SessionStatus.completed) :
    check_exam_eligibility subs (sessions ++ extra) uid now
      = check_exam_eligibility subs sessions uid now := by
  unfold check_exam_eligibility
  have hextra : extra.filter (examCountPred uid now) = [] := by
    rw [List.filter_eq_nil_iff]
    intro a ha
    have hne := h a ha
    simp [examCountPred, hne]
  rw [List.filter_append, hextra, List.append_nil]

/-- An in-progress session inside the current window, for the C6 witness. -/
def sessW6 : ExamSession :=
  { user_id := "u6", status := SessionStatus.in_progress, started_at := 1704672000 }

/-- Witness for C6: adding a concrete in-progress session inside the
window leaves a free user eligible. -/
theorem eligibility_ignores_noncompleted_witness :
    check_exam_eligibility [{ user_id := "u6" }] ([] ++ [sessW6]) "u6" 1704715200
      = check_exam_eligibility [{ user_id := "u6" }] [] "u6" 1704715200 :=
  eligibility_ignores_noncompleted [{ user_id := "u6" }] [] [sessW6] "u6" 1704715200
    (by
      intro s hs
      rw [List.mem_singleton] at hs
      subst hs
      decide)

/-! C4: the shape of the weekly exam window. -/

/-- A free subscription row for the C4 failing input. -/
def subRowC4 : SubRecord := { user_id := "u4" }

/-- The failing input session: completed exam started Friday 2024-01-05
12:00 UTC (epoch 1704456000). -/
def sessC4 : ExamSession :=
  { user_id := "u4", status := SessionStatus.completed, started_at := 1704456000 }

/-- C4: evaluation of `check_exam_eligibility` at the failing input.  At
`now` = Monday 2024-01-08 12:00 UTC (epoch 1704715200), the current fixed
UTC week starts Sunday 2024-01-07 00:00 UTC and contains zero completed
exams, so the claim (and the repository's own spec.md line 146) says the
user is eligible and any `nextAvailableAt` would be the next Sunday
2024-01-14 00:00 UTC (1705190400).  The implemented SQL instead counts a
rolling `NOW() - INTERVAL '7 days'` window: it returns ineligible with
`next_available_at` = started_at + 7 days = Friday 2024-01-12 12:00 UTC
(1705060800), which is not a Sunday-week boundary. -/
theorem eligibility_week_divergence :
    check_exam_eligibility [subRowC4] [sessC4] "u4" 1704715200
      = { eligible := false, reason := "Free tier limit: 1 exam per week",
          next_available_at := some 1705060800 }
    ∧ ([sessC4].filter (fun s =>
        decide (s.user_id = "u4") && decide (s.status = SessionStatus.completed)
          && inCurrentUTCWeek 1704715200 s.started_at)).length = 0
    ∧ specWeekStart 1704715200 = 1704585600
    ∧ specWeekStart 1704715200 + weekSeconds = 1705190400
    ∧ ((1705060800 : Int) ≠ 1705190400) := by
  refine ⟨?_, ?_, ?_, ?_, ?_⟩ <;> decide

/-! C7: lookup of a user with no Subscription Record. -/

/-- C7 counterexample: a subscription lookup for a user with no existing
record reports absence (`ok none`), rather than yielding an implicitly
created free/active record. -/
theorem getSubscription_absence_counterexample :
    getSubscription [] "u1" = Except.ok none
    ∧ (Except.ok (none : Option SubRecord) : Except String (Option SubRecord))
        ≠ Except.ok (some ({ user_id := "u1" } : SubRecord)) := by
  exact ⟨rfl, by simp⟩

/-- C7 amended: `getSubscription` performs no implicit creation: when no
row matches the user it returns null (the PGRST116 branch), and when
exactly one row matches it returns that stored row unchanged — the
free/active defaults come from the table schema at insertion time
elsewhere, never from the lookup. -/
theorem getSubscription_no_implicit_creation (store : List SubRecord) (uid : String) :
    (store.filter (fun r => decide (r.user_id = uid)) = [] →
      getSubscription store uid = Except.ok none)
    ∧ (∀ r, store.filter (fun r => decide (r.user_id = uid)) = [r] →
      getSubscription store uid = Except.ok (some r)) := by
  constructor
  · intro h
    unfold getSubscription
    rw [h]
  · intro r h
    unfold getSubscription
    rw [h]

/-- Premium record for the C7 witness. -/
def recW7 : SubRecord :=
  { user_id := "u7", stripe_customer_id := some "cus_7",
    stripe_subscription_id := some "sub_7", tier := Tier.premium }

/-- Witness for the amended C7: the lookup returns null on an empty store
and returns a concrete stored premium row unchanged (no free/active
defaulting). -/
theorem getSubscription_no_implicit_creation_witness :
    getSubscription [] "u7" = Except.ok none
    ∧ getSubscription [recW7] "u7" = Except.ok (some recW7) := by
  constructor
  · exact (getSubscription_no_implicit_creation [] "u7").1 rfl
  · exact (getSubscription_no_implicit_creation [recW7] "u7").2 recW7 (by decide)

/-! C8: bounded post-payment polling. -/

theorem pollLoop_count_le (obs : Nat → Option SubRecord) :
    ∀ fuel start, (pollLoop obs start fuel).2 ≤ fuel := by
  intro fuel
  induction fuel with
  | zero => intro start; simp [pollLoop]
  | succ k ih =>
    intro start
    simp only [pollLoop]
    cases hobs : obs start with
    | none =>
      simpa using Nat.succ_le_succ (ih (start + 1))
    | some s =>
      by_cases ht : s.tier = Tier.premium
      · simp [ht]
      · simp only [if_neg ht]
        simpa using Nat.succ_le_succ (ih (start + 1))

theorem pollLoop_none_of_no_premium (obs : Nat → Option SubRecord) :
    ∀ fuel start, (∀ j, j < fuel → ¬ premiumAt obs (start + j)) →
      pollLoop obs start fuel = (none, fuel) := by
  intro fuel
  induction fuel with
  | zero => intro start _; rfl
  | succ k ih =>
    intro start h
    have h0 : ¬ premiumAt obs start := by
      have := h 0 (Nat.succ_pos k)
      simpa using this
    have hrec : pollLoop obs (start + 1) k = (none, k) := by
      apply ih
      intro j hj
      have hj' := h (j + 1) (Nat.succ_lt_succ hj)
      have heq : start + (j + 1) = start + 1 + j := by omega
      rwa [heq] at hj'
    simp only [pollLoop]
    cases hobs : obs start with
    | none => simp [hrec]
    | some s =>
      have ht : ¬ s.tier = Tier.premium := fun ht => h0 ⟨s, hobs, ht⟩
      simp [ht, hrec]

theorem pollLoop_first_premium (obs : Nat → Option SubRecord) :
    ∀ fuel start i, i < fuel →
      (∀ j, j < i → ¬ premiumAt obs (start + j)) →
      ∀ s, obs (start + i) = some s → s.tier = Tier.premium →
      pollLoop obs start fuel = (some s, i + 1) := by
  intro fuel
  induction fuel with
  | zero =>
    intro start i hi _ s _ _
    exact absurd hi (Nat.not_lt_zero i)
  | succ k ih =>
    intro start i hi hno s hobs ht
    cases i with
    | zero =>
      rw [Nat.add_zero] at hobs
      simp only [pollLoop]
      simp [hobs, ht]
    | succ i' =>
      have h0 : ¬ premiumAt obs start := by
        have := hno 0 (Nat.succ_pos i')
        simpa using this
      have hshift : ∀ j, j < i' → ¬ premiumAt obs (start + 1 + j) := by
        intro j hj
        have hj' := hno (j + 1) (Nat.succ_lt_succ hj)
        have heq : start + (j + 1) = start + 1 + j := by omega
        rwa [heq] at hj'
      have hobs' : obs (start + 1 + i') = some s := by
        have heq : start + 1 + i' = start + (i' + 1) := by omega
        rw [heq]
        exact hobs
      have hrec := ih (start + 1) i' (by omega) hshift s hobs' ht
      simp only [pollLoop]
      cases hobs0 : obs start with
      | none => simp [hrec]
      | some s0 =>
        have ht0 : ¬ s0.tier = Tier.premium := fun h' => h0 ⟨s0, hobs0, h'⟩
        simp [ht0, hrec]

/-- C8: watching the store through the lookups `obs`, the post-payment
convergence check performs at most `maxAttempts + 1` lookups, always
terminates with some subscription when the final fetch sees a record,
returns the best-known (possibly still-free) record when no polling
attempt observed premium, stops early at the first attempt that observes
premium, and the delay schedule between attempts is strictly
increasing. -/
theorem refresh_bounded_polling (obs : Nat → Option SubRecord) (s3 : SubRecord)
    (hfinal : obs maxAttempts = some s3) :
    (refreshSubscriptionStatus obs).2 ≤ maxAttempts + 1
    ∧ (∃ r, (refreshSubscriptionStatus obs).1 = Except.ok r)
    ∧ ((∀ i, i < maxAttempts → ¬ premiumAt obs i) →
        refreshSubscriptionStatus obs = (Except.ok s3, maxAttempts + 1))
    ∧ (∀ i, i < maxAttempts → (∀ j, j < i → ¬ premiumAt obs j) →
        ∀ s, obs i = some s → s.tier = Tier.premium →
        refreshSubscriptionStatus obs = (Except.ok s, i + 1))
    ∧ List.Chain' (fun a b => a < b) pollDelays := by
  refine ⟨?_, ?_, ?_, ?_, ?_⟩
  · unfold refreshSubscriptionStatus
    have hc := pollLoop_count_le obs maxAttempts 0
    cases hp : pollLoop obs 0 maxAttempts with
    | mk o c =>
      have hc' : c ≤ maxAttempts := by rw [hp] at hc; exact hc
      cases o with
      | some s => simpa using Nat.le_trans hc' (Nat.le_succ _)
      | none =>
        simp only [hfinal]
        simpa using Nat.succ_le_succ hc'
  · unfold refreshSubscriptionStatus
    cases hp : pollLoop obs 0 maxAttempts with
    | mk o c =>
      cases o with
      | some s => exact ⟨s, by simp⟩
      | none => exact ⟨s3, by simp [hfinal]⟩
  · intro hno
    have hp := pollLoop_none_of_no_premium obs maxAttempts 0 (by
      intro j hj
      simpa using hno j hj)
    unfold refreshSubscriptionStatus
    rw [hp, hfinal]
  · intro i hi hno s hobs ht
    have hp := pollLoop_first_premium obs maxAttempts 0 i hi (by
      intro j hj
      simpa using hno j hj) s (by simpa using hobs) ht
    unfold refreshSubscriptionStatus
    rw [hp]
  · simp [pollDelays]

/-- A still-free record observed by every lookup, for the C8 witness. -/
def recW8 : SubRecord := { user_id := "u8" }

/-- Store observations for the C8 witness: the webhook never lands, so
every lookup sees the same free record. -/
def obsW8 : Nat → Option SubRecord := fun _ => some recW8

/-- Witness for C8: with a record that never turns premium, polling
exhausts the bound and returns the still-free record after
`maxAttempts + 1` lookups. -/
theorem refresh_bounded_polling_witness :
    refreshSubscriptionStatus obsW8 = (Except.ok recW8, maxAttempts + 1) := by
  have h := refresh_bounded_polling obsW8 recW8 rfl
  apply h.2.2.1
  intro i _
  rintro ⟨s, hs, ht⟩
  have hrs : recW8 = s := Option.some_inj.mp hs
  subst hrs
  exact absurd ht (by decide)

/-! C10: `hasPremiumAccess` is total and fail-closed. -/

/-- C10: `hasPremiumAccess` is a total boolean function of the lookup
outcome (it handles every constructor, hence never throws): it returns
true iff the lookup produced a record with tier premium and status active
or trialing, and it returns false both when the lookup reports no record
and when the lookup fails with an error. -/
theorem hasPremiumAccess_fail_closed (lookup : Except String (Option SubRecord)) :
    (hasPremiumAccessFrom lookup = true ↔
      ∃ s, lookup = Except.ok (some s) ∧ s.tier = Tier.premium ∧
        (s.status = SubStatus.active ∨ s.status = SubStatus.trialing))
    ∧ (∀ msg, hasPremiumAccessFrom (Except.error msg) = false)
    ∧ hasPremiumAccessFrom (Except.ok none) = false := by
  refine ⟨?_, fun _ => rfl, rfl⟩
  cases lookup with
  | error msg => simp [hasPremiumAccessFrom]
  | ok o =>
    cases o with
    | none => simp [hasPremiumAccessFrom]
    | some s => simp [hasPremiumAccessFrom]

/-! C9: score bounds of the Scoring Engine model. -/

theorem round2_bounds (x : ℚ) (h0 : 0 ≤ x) (h100 : x ≤ 100) :
    0 ≤ round2 x ∧ round2 x ≤ 100 := by
  unfold round2
  constructor
  · apply div_nonneg _ (by norm_num)
    have hr : (0 : ℤ) ≤ round (x * 100) := by
      rw [round_eq]
      apply Int.floor_nonneg.mpr
      nlinarith
    exact_mod_cast hr
  · rw [div_le_iff₀ (by norm_num : (0 : ℚ) < 100)]
    have hr : round (x * 100) ≤ 10000 := by
      rw [round_eq]
      have hlt : (Int.floor (x * 100 + 1 / 2) : ℤ) < 10001 := by
        apply Int.floor_lt.mpr
        push_cast
        nlinarith
      omega
    calc ((round (x * 100) : ℤ) : ℚ) ≤ ((10000 : ℤ) : ℚ) := by exact_mod_cast hr
      _ = 100 * 100 := by norm_num

theorem percentScore_bounds (c t : Nat) (h : c ≤ t) :
    0 ≤ percentScore c t ∧ percentScore c t ≤ 100 := by
  unfold percentScore
  apply round2_bounds
  · positivity
  · rcases Nat.eq_zero_or_pos t with ht | ht
    · subst ht
      have hc : c = 0 := Nat.le_zero.mp h
      subst hc
      norm_num
    · have htq : (0 : ℚ) < t := by exact_mod_cast ht
      rw [div_mul_eq_mul_div, div_le_iff₀ htq]
      have hcq : (c : ℚ) ≤ t := by exact_mod_cast h
      nlinarith

/-- C9 (modelled from the spec, no scoring implementation exists in the
repository): every score the Scoring Engine produces — per-section
percentage, per-category percentage, and overall average — lies in
[0, 100]; the per-section percentage is (correct in section / total in
section) × 100 rounded to two decimals by construction (`sectionScore`
with `percentScore`/`round2`). -/
theorem scoring_scores_bounded (items : List ScoringItem)
    (answers : List SubmittedAnswer) :
    (∀ sec q, sectionScore items answers sec = some q → 0 ≤ q ∧ q ≤ 100)
    ∧ (∀ cat q, categoryScore items answers cat = some q → 0 ≤ q ∧ q ≤ 100)
    ∧ (∀ q, overallAverage items answers = some q → 0 ≤ q ∧ q ≤ 100) := by
  have hsec : ∀ sec q, sectionScore items answers sec = some q → 0 ≤ q ∧ q ≤ 100 := by
    intro sec q h
    unfold sectionScore at h
    by_cases hz : (items.filter (fun it => decide (it.sect = sec))).length = 0
    · rw [if_pos hz] at h
      exact absurd h (by simp)
    · rw [if_neg hz] at h
      injection h with h'
      subst h'
      exact percentScore_bounds _ _ (List.length_filter_le _ _)
  have hcat : ∀ cat q, categoryScore items answers cat = some q → 0 ≤ q ∧ q ≤ 100 := by
    intro cat q h
    unfold categoryScore at h
    by_cases hz : (items.filter (fun it => decide (it.category = cat))).length = 0
    · rw [if_pos hz] at h
      exact absurd h (by simp)
    · rw [if_neg hz] at h
      injection h with h'
      subst h'
      exact percentScore_bounds _ _ (List.length_filter_le _ _)
  refine ⟨hsec, hcat, ?_⟩
  intro q h
  unfold overallAverage at h
  cases hv : sectionScore items answers ExamSect.verbal with
  | none =>
    rw [hv] at h
    cases hq : sectionScore items answers ExamSect.quantitative with
    | none =>
      rw [hq] at h
      exact absurd h (by simp)
    | some b =>
      rw [hq] at h
      injection h with h'
      subst h'
      exact hsec ExamSect.quantitative b hq
  | some a =>
    rw [hv] at h
    cases hq : sectionScore items answers ExamSect.quantitative with
    | none =>
      rw [hq] at h
      injection h with h'
      subst h'
      exact hsec ExamSect.verbal a hv
    | some b =>
      rw [hq] at h
      injection h with h'
      subst h'
      have ha := hsec ExamSect.verbal a hv
      have hb := hsec ExamSect.quantitative b hq
      constructor
      · linarith [ha.1, hb.1]
      · linarith [ha.2, hb.2]

/-- Items for the C9 witness: two verbal items in one category. -/
def itemsW9 : List ScoringItem :=
  [ { itemId := 0, sect := ExamSect.verbal, category := "analogies", correctKey := "A" },
    { itemId := 1, sect := ExamSect.verbal, category := "analogies", correctKey := "C" } ]

/-- Answers for the C9 witness: one correct, one wrong. -/
def answersW9 : List SubmittedAnswer :=
  [ { itemId := 0, answerKey := "A" }, { itemId := 1, answerKey := "B" } ]

/-- Witness for C9: the concrete verbal section score 50 is within
bounds. -/
theorem scoring_scores_bounded_witness :
    sectionScore itemsW9 answersW9 ExamSect.verbal = some 50
    ∧ (0 : ℚ) ≤ 50 ∧ (50 : ℚ) ≤ 100 := by
  have hfil : List.filter (fun it => decide (it.sect = ExamSect.verbal)) itemsW9
      = itemsW9 := by
    simp [itemsW9]
  have hcor : List.filter (isCorrect answersW9) itemsW9
      = [{ itemId := 0, sect := ExamSect.verbal, category := "analogies",
           correctKey := "A" }] := by
    simp [itemsW9, isCorrect, answerFor, answersW9, List.find?]
  have hs : sectionScore itemsW9 answersW9 ExamSect.verbal = some 50 := by
    unfold sectionScore
    rw [hfil, hcor]
    norm_num [itemsW9, percentScore, round2]
  exact ⟨hs, (scoring_scores_bounded itemsW9 answersW9).1 ExamSect.verbal 50 hs⟩

end Tafawoq
